import Mathlib

/-!
Verification of the image I/O dispatch layer of libcvd (`cvd/image_io.h`)
against its specification.

The development shallowly embeds the dispatch layer: streams are modelled as
byte lists with a read position and the `std::ios` state flags that the code
inspects; images as a size plus a pixel buffer; the per-format codecs (which
live in other files of the repository and are external collaborators of this
layer) as function parameters.  Machine bytes are `Nat` values below 256.
-/

namespace CVD

/-- A pixel buffer with explicit dimensions, as the `Image<I>` container seen
by this layer: `img_load` resizes it, codecs fill it.  Pixels are abstracted
to `Nat` values since the dispatch layer never inspects them. -/
structure Image where
  width : Nat
  height : Nat
  pixels : List Nat
  deriving DecidableEq, Repr

/-- The state of a `std::istream` as observed by `img_load`: whether the
object is dynamically a `std::ifstream`, whether `is_open()` holds, the
`failbit`/`eofbit` flags, the underlying byte sequence and the read
position. -/
structure IStream where
  isIfstream : Bool
  isOpen : Bool
  failbit : Bool
  eofbit : Bool
  data : List Nat
  pos : Nat
  deriving DecidableEq, Repr

namespace IStream

/-- `std::ios::good()`: no error flag is set. -/
def good (s : IStream) : Bool := !s.failbit && !s.eofbit

/-- `std::istream::peek()`: return the next byte without extracting it; at
end of data it returns EOF (which the code stores into an `unsigned char`,
giving `0xff`) and sets `eofbit`.  The read position never advances. -/
def peek (s : IStream) : Nat × IStream :=
  match s.data[s.pos]? with
  | some c => (c, s)
  | none => (0xff, { s with eofbit := true })

end IStream

/-- Errors of `Exceptions::Image_IO` that this layer throws. -/
inductive ImgError where
  | IfstreamNotOpen
  | EofBeforeImage
  | UnsupportedImageType
  | OpenError (path : String) (mode : String) (errno : Int)
  deriving DecidableEq, Repr

/-- The decoder entry points that `img_load` can dispatch to
(`PNM::readPNM`, `JPEG::readJPEG`, `TIFF::readTIFF`, `BMP::readBMP`). -/
inductive CodecKind where
  | pnm
  | jpeg
  | tiff
  | bmp
  deriving DecidableEq, Repr

/-- The sniffing part of `img_load(Image<I>&, std::istream&)`
(image_io.h lines 107-138), with the decoder invocation replaced by
returning which decoder is called and the stream it is given.
`ja`/`ta` model the `CVD_IMAGE_HAVE_JPEG`/`CVD_IMAGE_HAVE_TIFF`
conditional compilation: when the guard is false the corresponding
`else if` branch does not exist. -/
def img_load_sniff (ja ta : Bool) (s : IStream) :
    Except ImgError (CodecKind × IStream) :=
  if s.good = false then
    if s.isIfstream && !s.isOpen then .error .IfstreamNotOpen
    else .error .EofBeforeImage
  else
    let (c, s1) := s.peek
    if s1.good = false then .error .EofBeforeImage
    else if c = 'P'.toNat then .ok (.pnm, s1)
    else if ja && c = 0xff then .ok (.jpeg, s1)
    else if ta && c = 'I'.toNat then .ok (.tiff, s1)
    else if c = 'B'.toNat then .ok (.bmp, s1)
    else .error .UnsupportedImageType

/-- `img_load(Image<I>&, std::istream&)` in full: a decoder (a codec's read
function, external to this layer) receives the destination image and the
stream; a thrown exception leaves the destination image untouched, which
state passing renders as returning the image unchanged next to the error. -/
def img_load_stream (ja ta : Bool)
    (dec : CodecKind → Image → IStream → Image × Option ImgError)
    (im : Image) (s : IStream) : Image × Option ImgError :=
  match img_load_sniff ja ta s with
  | .error e => (im, some e)
  | .ok (k, s1) => dec k im s1

/-- The file system as this layer sees it: which paths open for reading
(with their contents), which open for writing, and the value of `errno`
after a failed open. -/
structure FS where
  readable : String → Option (List Nat)
  writable : String → Bool
  errno : Int

/-- Constructing `std::ifstream i(s.c_str(), ios::in|ios::binary)`: an
openable path gives an open, good stream positioned at byte 0; a failed
open gives a not-open `ifstream` with `failbit` set. -/
def ifstream_open (fs : FS) (path : String) : IStream :=
  match fs.readable path with
  | some d =>
      { isIfstream := true, isOpen := true, failbit := false, eofbit := false,
        data := d, pos := 0 }
  | none =>
      { isIfstream := true, isOpen := false, failbit := true, eofbit := false,
        data := [], pos := 0 }

/-- `img_load(Image<I>&, const std::string&)` (image_io.h lines 141-148):
open the path, throw `OpenError` when the stream is not good, otherwise
delegate to the stream overload. -/
def img_load_path (ja ta : Bool)
    (dec : CodecKind → Image → IStream → Image × Option ImgError)
    (fs : FS) (im : Image) (path : String) : Image × Option ImgError :=
  let i := ifstream_open fs path
  if i.good = false then (im, some (.OpenError path "for reading" fs.errno))
  else img_load_stream ja ta dec im i

/-- The `ImageType::ImageType` enumeration (image_io.h lines 60-70), as it
reads in a build with JPEG support: the members written out are `PNM`, `PS`,
`EPS`, `BMP`, and the trailing `CVD_IMAGE_HAVE_JPEG` macro expands to
`JPEG,` exactly when libjpeg is available (and to nothing otherwise, so the
`JPEG` constructor is the only conditional one).  No other member exists. -/
inductive ImageType where
  | PNM
  | PS
  | EPS
  | BMP
  | JPEG
  deriving DecidableEq, Repr, Fintype

/-- The identifier of each enumerator, for stating which tags exist. -/
def ImageType.name : ImageType → String
  | .PNM => "PNM"
  | .PS => "PS"
  | .EPS => "EPS"
  | .BMP => "BMP"
  | .JPEG => "JPEG"

/-- The encoder entry points named in `img_save`'s switch, external to this
layer: each takes the image and produces the bytes it writes to the
stream. -/
structure Writers where
  writePNM : Image → List Nat
  writeJPEG : Image → List Nat
  writePS : Image → List Nat
  writeEPS : Image → List Nat
  writeBMP : Image → List Nat

/-- `img_save(const BasicImage<PixelType>&, std::ostream&, ImageType::ImageType)`
(image_io.h lines 187-197): a switch from the format tag to the format's
write function. -/
def img_save_stream (w : Writers) (im : Image) (t : ImageType) : List Nat :=
  match t with
  | .PNM => w.writePNM im
  | .JPEG => w.writeJPEG im
  | .PS => w.writePS im
  | .EPS => w.writeEPS im
  | .BMP => w.writeBMP im

/-- `img_save(const BasicImage<PixelType>&, const std::string&, ImageType::ImageType)`
(image_io.h lines 199-205): open the path for writing in binary mode, throw
`OpenError` when the stream is not good, otherwise encode into it. -/
def img_save_path (w : Writers) (fs : FS) (im : Image) (name : String)
    (t : ImageType) : Except ImgError (List Nat) :=
  if fs.writable name then .ok (img_save_stream w im t)
  else .error (.OpenError name "for writing" fs.errno)

/-- `tolower` on one character in the C locale, as applied to each suffix
character by `img_save` (image_io.h lines 216-217). -/
def lowerChar (c : Char) : Char :=
  if 'A' ≤ c ∧ c ≤ 'Z' then Char.ofNat (c.toNat + 32) else c

/-- `name.rfind('.')`: the index of the last occurrence of a dot, or none
(`std::string::npos`). -/
def rfindDot : List Char → Option Nat
  | [] => none
  | c :: cs =>
    match rfindDot cs with
    | some i => some (i + 1)
    | none => if c = '.' then some 0 else none

/-- The extension resolution in
`img_save(const BasicImage<PixelType>&, const std::string&)`
(image_io.h lines 207-230), returning the tag the final `img_save` call
receives: no dot gives PNM; otherwise the suffix after the last dot is
lowercased with `tolower` and matched against `jpg`, `ps`, `eps`, `bmp`,
anything else giving PNM.  `name.substr(dot+1, name.length()-dot-1)` is the
whole tail after the dot. -/
def resolveExt (name : List Char) : ImageType :=
  match rfindDot name with
  | none => .PNM
  | some dot =>
    let suffix := (name.drop (dot + 1)).map lowerChar
    if suffix = "jpg".toList then .JPEG
    else if suffix = "ps".toList then .PS
    else if suffix = "eps".toList then .EPS
    else if suffix = "bmp".toList then .BMP
    else .PNM

/-- `img_save(const BasicImage<PixelType>&, const std::string&)` in full:
resolve the format from the name and save under it. -/
def img_save_name (w : Writers) (fs : FS) (im : Image) (name : String) :
    Except ImgError (List Nat) :=
  img_save_path w fs im name (resolveExt name.toList)

/-- Modelled from the spec: the closed set of per-channel representations of
the PixelType data model — 8-bit and 16-bit integer channels and single- or
double-precision floating-point channels, "each tagged with channel count
and per-channel bit width" (`Pixel::traits` and `Pixel::Component` live in
headers outside this excerpt). -/
inductive ComponentType where
  | u8
  | u16
  | f32
  | f64
  deriving DecidableEq, Repr, Fintype

/-- The two members of `Pixel::traits<T>` that `Internal::save_default`
reads: whether `T` is an integer type, and its effective bit usage. -/
structure ComponentTraits where
  integral : Bool
  bits_used : Nat

/-- Modelled from the spec: `Pixel::traits<T>` for each channel type; the
effective bit usage of each representation is its full width. -/
def traits : ComponentType → ComponentTraits
  | .u8 => ⟨true, 8⟩
  | .u16 => ⟨true, 16⟩
  | .f32 => ⟨false, 32⟩
  | .f64 => ⟨false, 64⟩

/-- A pixel type `C` as the save-default policy sees it:
`Pixel::Component<C>::type` is the channel representation, plus the channel
count the data model tags it with. -/
structure PixelType where
  comp : ComponentType
  channels : Nat
  deriving DecidableEq, Repr

/-- `Internal::save_default_<C, i>` (image_io.h lines 158-166): the primary
template fixes `use_16bit = 1`; the specialization for `i = 1` — selected
when `Pixel::traits<Component<C>::type>::integral` converts to `1`, i.e. is
`true` — has `use_16bit = bits_used > 8`. -/
def save_default_ (C : PixelType) (i : Bool) : Bool :=
  if i then decide (8 < (traits C.comp).bits_used) else true

/-- `Internal::save_default<C>::use_16bit` (image_io.h lines 168-171). -/
def save_default (C : PixelType) : Bool :=
  save_default_ C (traits C.comp).integral

/-- A fresh, good stream holding exactly the given bytes: the state of a
stream positioned at an encoder's output before any read. -/
def streamOfBytes (bs : List Nat) : IStream :=
  { isIfstream := false, isOpen := false, failbit := false, eofbit := false,
    data := bs, pos := 0 }

/-- The sniffing entry of each save tag in a full build: the magic byte
`img_load` matches and the decoder it then calls.  PS and EPS have no
entry — image_io.h lines 124-135 dispatch only on `P`, `0xff`, `I` and `B`,
and the repository has no PostScript reader. -/
def sniffEntry : ImageType → Option (Nat × CodecKind)
  | .PNM => some ('P'.toNat, .pnm)
  | .BMP => some ('B'.toNat, .bmp)
  | .JPEG => some (0xff, .jpeg)
  | .PS => none
  | .EPS => none

/-- Modelled from the spec: `PS::writeEPS` "outputs a complete EPS
(Encapsulated PostScript) figure"; a complete EPS document opens with the
`%!PS-Adobe-3.0 EPSF-3.0` header line, so its first byte is the `%`
character.  The body after the header (ASCII-85 pixel data and the footer)
never reaches the sniffer, so it is abstracted as the raw pixel bytes. -/
def writeEPS_model (im : Image) : List Nat :=
  ("%!PS-Adobe-3.0 EPSF-3.0".toList.map Char.toNat) ++ im.pixels

/-- A miniature lossless encoder used to instantiate the external codec
parameters: it tags its output with the format's magic byte, then the
dimensions, then the pixels verbatim. -/
def toyWrite (magic : Nat) (im : Image) : List Nat :=
  magic :: im.width :: im.height :: im.pixels

/-- The decoder inverting `toyWrite`: checks the magic byte and rebuilds
the image from the dimensions and pixels. -/
def toyRead (magic : Nat) (im : Image) (s : IStream) :
    Image × Option ImgError :=
  match s.data.drop s.pos with
  | m :: w :: h :: px =>
      if m = magic then (⟨w, h, px⟩, none)
      else (im, some .UnsupportedImageType)
  | _ => (im, some .EofBeforeImage)

/-- A concrete instantiation of the five write entry points: toy lossless
encoders for the sniffable formats, plus the spec-modelled EPS writer. -/
def toyWriters : Writers :=
  { writePNM := toyWrite 'P'.toNat
    writeJPEG := toyWrite 0xff
    writePS := toyWrite '%'.toNat
    writeEPS := writeEPS_model
    writeBMP := toyWrite 'B'.toNat }

/-- A concrete instantiation of the four read entry points, each inverting
the toy encoder of its format. -/
def toyDecoders : CodecKind → Image → IStream → Image × Option ImgError
  | .pnm => toyRead 'P'.toNat
  | .jpeg => toyRead 0xff
  | .tiff => toyRead 'I'.toNat
  | .bmp => toyRead 'B'.toNat

section Theorems

open CVD

/-- C1: for every readable stream whose first unconsumed byte is `b`,
`img_load` selects the codec by the exact table: `'P'` dispatches to the
PNM decoder; `0xff` to the JPEG decoder (only when JPEG support is compiled
in); `'I'` to the TIFF decoder (only when TIFF support is compiled in);
`'B'` to the BMP decoder; any other byte throws
`UnsupportedImageType`. -/
theorem img_load_dispatch_table (ja ta : Bool) (s : IStream) (b : Nat)
    (hg : s.good = true) (hb : s.data[s.pos]? = some b) :
    img_load_sniff ja ta s =
      (if b = 'P'.toNat then .ok (.pnm, s)
       else if ja && b = 0xff then .ok (.jpeg, s)
       else if ta && b = 'I'.toNat then .ok (.tiff, s)
       else if b = 'B'.toNat then .ok (.bmp, s)
       else .error .UnsupportedImageType) := by
  simp only [img_load_sniff, IStream.peek, hb, hg]
  simp

/-- C1 witness: a good stream starting with byte `'B'` dispatches to the
BMP decoder even with JPEG and TIFF compiled in. -/
theorem img_load_dispatch_table_witness :
    img_load_sniff true true (streamOfBytes [66, 77]) =
      .ok (.bmp, streamOfBytes [66, 77]) := by
  have h := img_load_dispatch_table true true (streamOfBytes [66, 77]) 66
    (by decide) (by decide)
  rw [h]
  rfl

/-- C7: sniffing peeks exactly one byte without consuming it: when a codec
is dispatched, the stream it receives is the stream as it was at entry to
`img_load` — same bytes, same read position — so the codec re-reads the
sniffed byte. -/
theorem img_load_sniff_preserves_stream (ja ta : Bool) (s s1 : IStream)
    (k : CodecKind) (h : img_load_sniff ja ta s = .ok (k, s1)) :
    s1 = s := by
  unfold img_load_sniff at h
  split at h
  · split at h <;> simp_all
  · rcases hd : s.data[s.pos]? with _ | c <;>
      simp only [IStream.peek, hd, IStream.good] at h <;>
      split_ifs at h <;> simp_all

/-- C7 witness: dispatching on a PNM stream hands the codec the entry
stream unchanged. -/
theorem img_load_sniff_preserves_stream_witness :
    streamOfBytes [80, 53] = streamOfBytes [80, 53] :=
  img_load_sniff_preserves_stream true true (streamOfBytes [80, 53])
    (streamOfBytes [80, 53]) .pnm rfl

/-- C3: a never-opened `std::ifstream` (not good, `is_open()` false) makes
`img_load` throw `IfstreamNotOpen`; any other not-good stream throws
`EofBeforeImage`; and a good but exhausted stream, whose first peek hits
end of data, also throws `EofBeforeImage`. -/
theorem img_load_error_taxonomy (ja ta : Bool) (s t u : IStream)
    (hs1 : s.good = false) (hs2 : s.isIfstream = true) (hs3 : s.isOpen = false)
    (ht1 : t.good = false) (ht2 : t.isIfstream = true → t.isOpen = true)
    (hu1 : u.good = true) (hu2 : u.data[u.pos]? = none) :
    img_load_sniff ja ta s = .error .IfstreamNotOpen ∧
    img_load_sniff ja ta t = .error .EofBeforeImage ∧
    img_load_sniff ja ta u = .error .EofBeforeImage := by
  refine ⟨?_, ?_, ?_⟩
  · simp [img_load_sniff, hs1, hs2, hs3]
  · have hb : (t.isIfstream && !t.isOpen) = false := by
      cases hif : t.isIfstream
      · simp
      · simp [ht2 hif]
    simp [img_load_sniff, ht1, hb]
  · simp only [img_load_sniff, hu1, IStream.peek, hu2]
    simp [IStream.good]

/-- C3 witness: a failed never-opened ifstream, a failed plain stream and
an empty good stream produce the three documented errors. -/
theorem img_load_error_taxonomy_witness :
    img_load_sniff true true ⟨true, false, true, false, [], 0⟩ =
      .error .IfstreamNotOpen ∧
    img_load_sniff true true ⟨false, false, true, false, [], 0⟩ =
      .error .EofBeforeImage ∧
    img_load_sniff true true (streamOfBytes []) = .error .EofBeforeImage :=
  img_load_error_taxonomy true true _ _ _ (by decide) (by decide) (by decide)
    (by decide) (by decide) (by decide) (by decide)

/-- C10: `IfstreamNotOpen` is thrown only for an `std::ifstream` whose file
is not open; every other stream that is not good at entry — including any
non-ifstream stream in a failed state, and any ifstream that is open —
makes `img_load` throw `EofBeforeImage` instead. -/
theorem ifstream_not_open_only (ja ta : Bool) (s : IStream) :
    (img_load_sniff ja ta s = .error .IfstreamNotOpen →
      s.isIfstream = true ∧ s.isOpen = false) ∧
    (s.good = false → (s.isIfstream = true → s.isOpen = true) →
      img_load_sniff ja ta s = .error .EofBeforeImage) := by
  constructor
  · intro h
    unfold img_load_sniff at h
    split at h
    · split at h
      · rename_i hc
        simp only [Bool.and_eq_true, Bool.not_eq_true'] at hc
        exact hc
      · simp at h
    · rcases hd : s.data[s.pos]? with _ | c <;>
        simp only [IStream.peek, hd, IStream.good] at h <;>
        split_ifs at h <;> simp_all
  · intro h1 h2
    have hb : (s.isIfstream && !s.isOpen) = false := by
      cases hif : s.isIfstream
      · simp
      · simp [h2 hif]
    simp [img_load_sniff, h1, hb]

/-- C10 witness: an ifstream that is open but has failed does not give
`IfstreamNotOpen`; it gives `EofBeforeImage`. -/
theorem ifstream_not_open_only_witness :
    img_load_sniff true true ⟨true, true, true, false, [], 0⟩ =
      .error .EofBeforeImage :=
  (ifstream_not_open_only true true ⟨true, true, true, false, [], 0⟩).2
    (by decide) (by decide)

/-- C9: whenever `img_load` — from a stream or from a path — fails before
dispatching to a codec, the destination image comes back exactly as it went
in: the throw happens before any codec could resize it or write pixels
(for any decoder behaviour whatsoever), and the thrown error is the
sniffer's. -/
theorem img_load_failure_leaves_image (ja ta : Bool)
    (dec : CodecKind → Image → IStream → Image × Option ImgError)
    (im : Image) (s : IStream) (e : ImgError) (fs : FS) (p : String)
    (hs : img_load_sniff ja ta s = .error e) (hp : fs.readable p = none) :
    img_load_stream ja ta dec im s = (im, some e) ∧
    img_load_path ja ta dec fs im p =
      (im, some (.OpenError p "for reading" fs.errno)) := by
  constructor
  · simp [img_load_stream, hs]
  · simp [img_load_path, ifstream_open, hp, IStream.good]

/-- C9 witness: an unsupported leading byte and an unopenable path both
leave a concrete destination image untouched. -/
theorem img_load_failure_leaves_image_witness :
    img_load_stream true true toyDecoders ⟨4, 4, [9]⟩ (streamOfBytes [0]) =
      (⟨4, 4, [9]⟩, some .UnsupportedImageType) ∧
    img_load_path true true toyDecoders ⟨fun _ => none, fun _ => false, 2⟩
        ⟨4, 4, [9]⟩ "a.pnm" =
      (⟨4, 4, [9]⟩, some (.OpenError "a.pnm" "for reading" 2)) :=
  img_load_failure_leaves_image true true toyDecoders ⟨4, 4, [9]⟩
    (streamOfBytes [0]) .UnsupportedImageType
    ⟨fun _ => none, fun _ => false, 2⟩ "a.pnm" rfl rfl

/-- C5: saving to an unopenable path throws `OpenError` carrying that path,
the mode string "for writing" and the OS error code; loading from an
unopenable path throws `OpenError` carrying the path, "for reading" and the
OS error code. -/
theorem open_error_carries_path_mode_errno (w : Writers) (fs : FS)
    (dec : CodecKind → Image → IStream → Image × Option ImgError)
    (im : Image) (nm p : String) (t : ImageType)
    (hw : fs.writable nm = false) (hr : fs.readable p = none) :
    img_save_path w fs im nm t =
      .error (.OpenError nm "for writing" fs.errno) ∧
    img_load_path true true dec fs im p =
      (im, some (.OpenError p "for reading" fs.errno)) := by
  constructor
  · simp [img_save_path, hw]
  · simp [img_load_path, ifstream_open, hr, IStream.good]

/-- C5 witness: on a file system where nothing opens and `errno` is 13,
save and load report `OpenError` with the exact path, mode and code. -/
theorem open_error_carries_path_mode_errno_witness :
    img_save_path toyWriters ⟨fun _ => none, fun _ => false, 13⟩ ⟨1, 1, [0]⟩
        "out.bmp" .BMP =
      .error (.OpenError "out.bmp" "for writing" 13) ∧
    img_load_path true true toyDecoders ⟨fun _ => none, fun _ => false, 13⟩
        ⟨1, 1, [0]⟩ "in.bmp" =
      (⟨1, 1, [0]⟩, some (.OpenError "in.bmp" "for reading" 13)) :=
  open_error_carries_path_mode_errno toyWriters
    ⟨fun _ => none, fun _ => false, 13⟩ toyDecoders ⟨1, 1, [0]⟩
    "out.bmp" "in.bmp" .BMP rfl rfl

/-- C6: the save-time default bit depth is a compile-time function of the
pixel type alone, and it selects 16-bit output exactly when the component
representation's effective bit usage exceeds 8 — for integral components by
the `bits_used > 8` comparison, and for floating-point components (32 or 64
bits used) by the primary template's constant `1`. -/
theorem save_default_use_16bit (C : PixelType) :
    save_default C = decide (8 < (traits C.comp).bits_used) := by
  rcases C with ⟨comp, ch⟩
  cases comp <;> rfl

/-- C4, counterexample: no member of the `ImageType` enumeration is a TIFF
tag — the enumeration lists `PNM`, `PS`, `EPS`, `BMP` and conditionally
`JPEG`, and nothing else, so TIFF cannot be named as a save format. -/
theorem no_tiff_image_type : ¬ ∃ t : ImageType, t.name = "TIFF" := by
  decide

/-- C4, amended: the `ImageType` enumeration is exactly
{PNM, PS, EPS, BMP, JPEG} in a build with JPEG support (the `JPEG` member
alone being conditional on the JPEG codec); there is no TIFF member even
when TIFF support is compiled in. -/
theorem image_type_members :
    (∀ t : ImageType,
      t.name ∈ ["PNM", "PS", "EPS", "BMP", "JPEG"]) ∧
    (∀ nm : String, nm ∈ ["PNM", "PS", "EPS", "BMP", "JPEG"] →
      ∃ t : ImageType, t.name = nm) := by
  constructor
  · decide
  · intro nm h
    fin_cases h
    · exact ⟨.PNM, rfl⟩
    · exact ⟨.PS, rfl⟩
    · exact ⟨.EPS, rfl⟩
    · exact ⟨.BMP, rfl⟩
    · exact ⟨.JPEG, rfl⟩

/-- C4 witness: applying the amended theorem at the name "BMP" produces the
BMP tag. -/
theorem image_type_members_witness : ∃ t : ImageType, t.name = "BMP" :=
  image_type_members.2 "BMP" (by decide)

/-- `rfind('.')` reports no dot on a dot-free name. -/
theorem rfindDot_eq_none {l : List Char} (h : '.' ∉ l) : rfindDot l = none := by
  induction l with
  | nil => rfl
  | cons c cs ih =>
    simp only [List.mem_cons, not_or] at h
    have hc : c ≠ '.' := fun hcc => h.1 hcc.symm
    simp [rfindDot, ih h.2, hc]

/-- `rfind('.')` finds the last dot: on `stem ++ "." ++ suf` with a
dot-free `suf` it reports the position of that dot. -/
theorem rfindDot_append (stem suf : List Char) (h : '.' ∉ suf) :
    rfindDot (stem ++ '.' :: suf) = some stem.length := by
  induction stem with
  | nil => simp [rfindDot, rfindDot_eq_none h]
  | cons c cs ih => simp [rfindDot, ih]

/-- C2: `img_save(im, name)` resolves the format from the suffix after the
last dot of the name, case-insensitively (each suffix character is folded
by `tolower` before the table lookup): `jpg` gives JPEG, `ps` gives PS,
`eps` gives EPS, `bmp` gives BMP, and a name with no dot, a trailing dot
(empty suffix) or any other suffix silently falls back to PNM — no error is
signalled. -/
theorem resolveExt_table :
    (∀ name : List Char, '.' ∉ name → resolveExt name = .PNM) ∧
    (∀ stem suf : List Char, '.' ∉ suf →
      resolveExt (stem ++ '.' :: suf) =
        (if suf.map lowerChar = "jpg".toList then .JPEG
         else if suf.map lowerChar = "ps".toList then .PS
         else if suf.map lowerChar = "eps".toList then .EPS
         else if suf.map lowerChar = "bmp".toList then .BMP
         else .PNM)) := by
  constructor
  · intro name h
    simp [resolveExt, rfindDot_eq_none h]
  · intro stem suf h
    have hdrop : (stem ++ '.' :: suf).drop (stem.length + 1) = suf := by
      rw [List.drop_append 1]
      rfl
    simp [resolveExt, rfindDot_append stem suf h, hdrop]

/-- C2 witness: `x.JPG` and `x.jpg` both resolve to JPEG, `x` and
`x.unknownext` resolve to PNM, and the trailing-dot name `x.` resolves to
PNM. -/
theorem resolveExt_table_witness :
    resolveExt "x.JPG".toList = .JPEG ∧
    resolveExt "x.jpg".toList = .JPEG ∧
    resolveExt "x".toList = .PNM ∧
    resolveExt "x.unknownext".toList = .PNM ∧
    resolveExt "x.".toList = .PNM := by
  refine ⟨?_, ?_, ?_, ?_, ?_⟩
  · have h := resolveExt_table.2 "x".toList "JPG".toList (by decide)
    rw [show "x.JPG".toList = "x".toList ++ '.' :: "JPG".toList by rfl, h]
    rfl
  · have h := resolveExt_table.2 "x".toList "jpg".toList (by decide)
    rw [show "x.jpg".toList = "x".toList ++ '.' :: "jpg".toList by rfl, h]
    rfl
  · exact resolveExt_table.1 "x".toList (by decide)
  · have h := resolveExt_table.2 "x".toList "unknownext".toList (by decide)
    rw [show "x.unknownext".toList =
          "x".toList ++ '.' :: "unknownext".toList by rfl, h]
    rfl
  · have h := resolveExt_table.2 "x".toList [] (by decide)
    rw [show "x.".toList = "x".toList ++ '.' :: [] by rfl, h]
    rfl

/-- C8, counterexample: the round trip fails for the EPS save format. The
bytes `img_save` produces for a concrete 1x1 image under `ImageType.EPS`
begin with `%`, a byte `img_load`'s dispatch table does not recognise, so
loading them throws `UnsupportedImageType` and yields no image at all —
the destination stays at its initial value instead of the saved image. -/
theorem round_trip_fails_for_eps :
    (img_load_stream true true toyDecoders ⟨0, 0, []⟩
        (streamOfBytes (img_save_stream toyWriters ⟨1, 1, [7]⟩ .EPS))).2 =
      some .UnsupportedImageType ∧
    (img_load_stream true true toyDecoders ⟨0, 0, []⟩
        (streamOfBytes (img_save_stream toyWriters ⟨1, 1, [7]⟩ .EPS))).1 ≠
      ⟨1, 1, [7]⟩ := by
  decide

/-- A successful sniff routes `img_load` straight into the sniffed codec's
read call on the sniffed stream. -/
theorem img_load_sniff_routes (ja ta : Bool)
    (dec : CodecKind → Image → IStream → Image × Option ImgError)
    (im : Image) (s : IStream) (k : CodecKind) (s1 : IStream)
    (h : img_load_sniff ja ta s = .ok (k, s1)) :
    img_load_stream ja ta dec im s = dec k im s1 := by
  simp [img_load_stream, h]

/-- C8, amended: for the save formats the sniffer recognises — PNM, BMP
and JPEG, the formats with a `sniffEntry` — and any image the format's
codec encodes losslessly (its encoder output begins with the format's magic
byte and its decoder inverts its encoder), loading the saved bytes into any
destination reproduces the image exactly.  For PS and EPS no such entry
exists and the round trip fails (see the counterexample). -/
theorem round_trip (w : Writers)
    (dec : CodecKind → Image → IStream → Image × Option ImgError)
    (im dst : Image) (F : ImageType) (b : Nat) (k : CodecKind)
    (hF : sniffEntry F = some (b, k))
    (hmagic : (img_save_stream w im F).head? = some b)
    (hinv : dec k dst (streamOfBytes (img_save_stream w im F)) = (im, none)) :
    img_load_stream true true dec dst
      (streamOfBytes (img_save_stream w im F)) = (im, none) := by
  obtain ⟨tl, hbs⟩ : ∃ tl, img_save_stream w im F = b :: tl := by
    cases hb : img_save_stream w im F with
    | nil => rw [hb] at hmagic; simp at hmagic
    | cons x tl =>
        rw [hb] at hmagic
        simp only [List.head?_cons, Option.some.injEq] at hmagic
        exact ⟨tl, by rw [hmagic]⟩
  rw [hbs] at hinv ⊢
  cases F with
  | PS => simp [sniffEntry] at hF
  | EPS => simp [sniffEntry] at hF
  | PNM =>
      simp only [sniffEntry, Option.some.injEq, Prod.mk.injEq] at hF
      obtain ⟨hb, hk⟩ := hF
      subst hb; subst hk
      have hsn : img_load_sniff true true (streamOfBytes ('P'.toNat :: tl)) =
          .ok (.pnm, streamOfBytes ('P'.toNat :: tl)) := by
        simp [img_load_sniff, IStream.peek, streamOfBytes, IStream.good]
      exact (img_load_sniff_routes true true dec dst
        (streamOfBytes ('P'.toNat :: tl)) .pnm _ hsn).trans hinv
  | BMP =>
      simp only [sniffEntry, Option.some.injEq, Prod.mk.injEq] at hF
      obtain ⟨hb, hk⟩ := hF
      subst hb; subst hk
      have hsn : img_load_sniff true true (streamOfBytes ('B'.toNat :: tl)) =
          .ok (.bmp, streamOfBytes ('B'.toNat :: tl)) := by
        simp [img_load_sniff, IStream.peek, streamOfBytes, IStream.good]
      exact (img_load_sniff_routes true true dec dst
        (streamOfBytes ('B'.toNat :: tl)) .bmp _ hsn).trans hinv
  | JPEG =>
      simp only [sniffEntry, Option.some.injEq, Prod.mk.injEq] at hF
      obtain ⟨hb, hk⟩ := hF
      subst hb; subst hk
      have hsn : img_load_sniff true true (streamOfBytes (0xff :: tl)) =
          .ok (.jpeg, streamOfBytes (0xff :: tl)) := by
        simp [img_load_sniff, IStream.peek, streamOfBytes, IStream.good]
      exact (img_load_sniff_routes true true dec dst
        (streamOfBytes (0xff :: tl)) .jpeg _ hsn).trans hinv

/-- C8 witness: the toy lossless PNM codec round-trips a concrete 1x2
image through save and load. -/
theorem round_trip_witness :
    img_load_stream true true toyDecoders ⟨0, 0, []⟩
        (streamOfBytes (img_save_stream toyWriters ⟨1, 2, [3, 4]⟩ .PNM)) =
      (⟨1, 2, [3, 4]⟩, none) :=
  round_trip toyWriters toyDecoders ⟨1, 2, [3, 4]⟩ ⟨0, 0, []⟩ .PNM 'P'.toNat
    .pnm rfl rfl rfl

end Theorems
